import Mathlib

/-
Verification of the YZU course bot core (bot.py) against its specification.
Response texts are modelled as lists of characters; every definition below
is a direct shallow embedding of the corresponding Python function.
-/

/-- Characters of a string literal, used to model Python text values. -/
def lit (s : String) : List Char := s.data

/-- The single-quote character, written via its code point. -/
def squote : Char := Char.ofNat 39

/-- The double-quote character, written via its code point. -/
def dquote : Char := Char.ofNat 34

/-- Does the character match the regex character class of a quote? -/
def isQuote (c : Char) : Bool := c == squote || c == dquote

/-- Substring containment, the semantics of the Python `in` operator on
strings: `containsSub needle hay` holds when `needle` occurs contiguously
inside `hay`. -/
def containsSub (needle : List Char) : List Char → Bool
  | [] => needle.isEmpty
  | c :: rest => needle.isPrefixOf (c :: rest) || containsSub needle rest

/-- Lazy body matching for the alert regex: given the characters following
the opening quote, return the shortest body that is followed by a quote and
a closing parenthesis; the body may not contain a newline (the regex dot
does not match newlines). `none` models "no match from this position". -/
def grabBody : List Char → Option (List Char)
  | [] => none
  | [_] => none
  | c :: c2 :: rest =>
    if isQuote c && c2 == ')' then some []
    else if c != '\n' then (grabBody (c2 :: rest)).map (fun b => c :: b)
    else none

/-- Try to match the alert pattern at the head of the text: the literal
characters of "alert(", one quote, a body, a quote, ")". Returns the
captured body on success. -/
def alertAt : List Char → Option (List Char)
  | 'a' :: 'l' :: 'e' :: 'r' :: 't' :: '(' :: q :: rest =>
    if isQuote q then grabBody rest else none
  | _ => none

/-- Leftmost search for the alert pattern, the semantics of re.search with
the pattern used by the bot. -/
def findAlert : List Char → Option (List Char)
  | [] => none
  | c :: rest =>
    match alertAt (c :: rest) with
    | some b => some b
    | none => findAlert rest

/-- Does the text contain the alert pattern anywhere? -/
def hasAlert (t : List Char) : Bool := (findAlert t).isSome

/-- The character class removed by the cleanup substitution in
bot.py `_clean_alert_msg`: parentheses, dot, carriage return, backslash,
and the letters n, r, c. -/
def cleanChars : List Char := ['(', ')', '.', '\r', '\\', 'n', 'r', 'c']

/-- Model of bot.py `_clean_alert_msg` (lines 324-346): extract the first
alert message from the response text and strip the cleanup characters.
`none` models the AttributeError raised when the search finds no match and
`.group(1)` is dereferenced on `None`. -/
def cleanAlertMsg (t : List Char) : Option (List Char) :=
  (findAlert t).map (fun m => m.filter (fun c => !(cleanChars.contains c)))

/-- Accepted markers of `_handle_select_courses_result` (line 637). -/
def succeededMessages : List (List Char) :=
  [lit "加選訊息", lit "已選過", lit "完成加選"]

/-- Retryable markers of `_handle_select_courses_result` (line 638). -/
def retryMessages : List (List Char) :=
  [lit "開放外系生可加選", lit "人數已達上限"]

/-- Session-lost markers of `_handle_select_courses_result` (line 639). -/
def failedMessages : List (List Char) :=
  [lit "異常查詢課程資訊", lit "斷線", lit "逾時", lit "logged off"]

/-- Blocked marker of `_handle_select_courses_result` (line 640). -/
def criticalMessages : List (List Char) := [lit "異常登入"]

/-- The Python expression `any(msg in t for msg in msgs)`. -/
def anyIn (t : List Char) (msgs : List (List Char)) : Bool :=
  msgs.any (fun m => containsSub m t)

/-- Outcome of one call of `_handle_select_courses_result`. `crash` models
the exception escaping from `_clean_alert_msg`, which the surrounding
decorator turns into process termination. -/
inductive SelectOutcome
  | keep
  | removed
  | relogin
  | blockedExit
  | warnRemoved
  | crash
  deriving DecidableEq

/-- Model of bot.py `_handle_select_courses_result` (lines 607-658): the
alert message is extracted first; then the response text is classified
against the four marker groups in source order. -/
def handleSelectResult (t : List Char) : SelectOutcome :=
  match cleanAlertMsg t with
  | none => SelectOutcome.crash
  | some _ =>
    if anyIn t retryMessages then SelectOutcome.keep
    else if anyIn t succeededMessages then SelectOutcome.removed
    else if anyIn t failedMessages then SelectOutcome.relogin
    else if anyIn t criticalMessages then SelectOutcome.blockedExit
    else SelectOutcome.warnRemoved

/-- Classification written from the specification words of section 4.5:
four ordered marker groups, first match wins, no marker an unrecognized
drop. Used to compare the source handler against the spec sentence. -/
def specOrderedClassify (t : List Char) : SelectOutcome :=
  if anyIn t retryMessages then SelectOutcome.keep
  else if anyIn t succeededMessages then SelectOutcome.removed
  else if anyIn t failedMessages then SelectOutcome.relogin
  else if anyIn t criticalMessages then SelectOutcome.blockedExit
  else SelectOutcome.warnRemoved

/-- Effect of a handler outcome on the pending course list, from the
branch bodies of `_handle_select_courses_result`: the accepted and the
unrecognized branches call `verified_usr_course_list.remove(option)`
(first occurrence, modelled by `List.erase`); the retry branch returns;
the session-lost branch calls `_login()` and discards its boolean result
`loginResult`, then returns; the blocked branch and a crash terminate the
process (`none`). -/
def applyOutcome (loginResult : Bool) (o : SelectOutcome)
    (pending : List (List Char)) (opt : List Char) :
    Option (List (List Char)) :=
  match o with
  | SelectOutcome.keep => some pending
  | SelectOutcome.removed => some (pending.erase opt)
  | SelectOutcome.relogin => some pending
  | SelectOutcome.blockedExit => none
  | SelectOutcome.warnRemoved => some (pending.erase opt)
  | SelectOutcome.crash => none

/-- One pass of the selection loop in `_select_courses` (lines 559-604):
iterate over a snapshot (`copy()`) of the course list while the removals
of the handler are applied to the live list. `resp` gives the confirmation
text the server returns for each attempted option. -/
def runPass (loginResult : Bool) (resp : List Char → List Char) :
    List (List Char) → List (List Char) → Option (List (List Char))
  | [], pending => some pending
  | opt :: rest, pending =>
    match applyOutcome loginResult (handleSelectResult (resp opt)) pending opt with
    | none => none
    | some p2 => runPass loginResult resp rest p2

/-- A full pass starts from the snapshot of the current pending list. -/
def selectPassOnce (loginResult : Bool) (resp : List Char → List Char)
    (pending : List (List Char)) : Option (List (List Char)) :=
  runPass loginResult resp pending pending

/-- Exit status of the fueled selection loop: `normal` is the while loop
condition becoming false, `aborted` is a process exit from inside a pass,
`fuelOut` means the loop was still running after the given number of
passes (the source loop has no pass bound). -/
inductive LoopExit
  | normal (final : List (List Char))
  | aborted
  | fuelOut (pending : List (List Char))
  deriving DecidableEq

/-- The while loop of `_select_courses`: repeat passes while the pending
list is nonempty. `resp` gives the server responses of each pass. -/
def selectLoop (loginResult : Bool) (resp : Nat → List Char → List Char) :
    Nat → List (List Char) → LoopExit
  | 0, pending => LoopExit.fuelOut pending
  | fuel+1, pending =>
    if pending.isEmpty then LoopExit.normal pending
    else
      match selectPassOnce loginResult (resp fuel) pending with
      | none => LoopExit.aborted
      | some p2 => selectLoop loginResult resp fuel p2

/-- A confirmation text whose alert body is the seats-full retry marker. -/
def retryText : List Char :=
  lit "alert(" ++ [dquote] ++ lit "人數已達上限" ++ [dquote] ++ lit ")"

/-- A server that answers every attempt of every pass with `retryText`. -/
def constRetryResp : Nat → List Char → List Char := fun _ _ => retryText

/-- A confirmation text whose alert body is a session-lost marker. -/
def sessionLostText : List Char :=
  lit "alert(" ++ [dquote] ++ lit "斷線" ++ [dquote] ++ lit ")"

/-- The Python float modulo on a nonnegative modulus: `t mod 60` as used
in `dynamic_delay` (line 687), modelled over the rationals. -/
def pmod60 (t : ℚ) : ℚ := t - 60 * ((Int.floor (t / 60) : ℤ) : ℚ)

/-- Model of bot.py `dynamic_delay` (lines 660-697). The state is the
`_boosted` flag; the input is the elapsed time since the loop started.
Returns the delay together with the new flag value: a cleared flag makes
every later call return 3 without looking at the clock. -/
def dynamicDelay (boosted : Bool) (elapsed : ℚ) : Nat × Bool :=
  if !boosted then (3, false)
  else if pmod60 elapsed < 5 then (0, true)
  else (3, false)

/-- The delays emitted by a sequence of `dynamic_delay` calls at the given
elapsed times, threading the `_boosted` flag through the calls. -/
def delayTrace (boosted : Bool) : List ℚ → List Nat
  | [] => []
  | t :: ts =>
    let r := dynamicDelay boosted t
    r.1 :: delayTrace r.2 ts

/-- Result of one invocation of a function wrapped by the
`handle_exceptions` decorator (lines 25-64): it returns a value, raises a
`requests.RequestException`, or raises any other exception. -/
inductive FuncResult (α : Type)
  | ok (a : α)
  | netErr
  | fatalErr
  deriving DecidableEq

/-- Outcome of the decorator wrapper given the results of the successive
invocations of the wrapped function: `returned` on the first success,
`exited` on the first non network exception (the wrapper logs and calls
sys.exit), `retrying` when every listed invocation raised a network error
and the wrapper is still looping. -/
inductive RetryOutcome (α : Type)
  | returned (a : α)
  | exited
  | retrying
  deriving DecidableEq

/-- Model of the `while True` retry loop of `handle_exceptions`: scan the
invocation results in order. -/
def retryRun {α : Type} : List (FuncResult α) → RetryOutcome α
  | [] => RetryOutcome.retrying
  | FuncResult.ok a :: _ => RetryOutcome.returned a
  | FuncResult.netErr :: rest => retryRun rest
  | FuncResult.fatalErr :: _ => RetryOutcome.exited

/-- The sleeps performed by the decorator before each re-invocation: one
fixed wait of half a second after every network error (the default
argument of `handle_exceptions`, line 25). -/
def retryWaits {α : Type} : List (FuncResult α) → List ℚ
  | [] => []
  | FuncResult.ok _ :: _ => []
  | FuncResult.netErr :: rest => (1/2 : ℚ) :: retryWaits rest
  | FuncResult.fatalErr :: _ => []

/-- The login success marker of `_handle_login_result` (line 438),
assembled around its two single-quote characters. -/
def succeededMessage : List Char :=
  lit "parent.location =" ++ squote :: lit "SelCurr.aspx?Culture=zh-tw" ++ [squote]

/-- The CAPTCHA retry marker of `_handle_login_result` (line 439). -/
def retryMessage : List Char := lit "驗證碼錯誤"

/-- Outcome of one call of `_handle_login_result` (lines 419-454):
`success` is the True return, `retryCaptcha` the None return that makes
`_login` loop, `rejected` the False return after showing the alert message
and waiting for an interactive acknowledgment, and `crash` the exception
escaping from `_clean_alert_msg` when the text has no alert pattern. -/
inductive LoginOutcome
  | success
  | retryCaptcha
  | rejected (msg : List Char)
  | crash
  deriving DecidableEq

/-- Model of bot.py `_handle_login_result`: first-match classification of
the login response text. -/
def handleLoginResult (t : List Char) : LoginOutcome :=
  if containsSub succeededMessage t then LoginOutcome.success
  else if containsSub retryMessage t then LoginOutcome.retryCaptcha
  else
    match cleanAlertMsg t with
    | some m => LoginOutcome.rejected m
    | none => LoginOutcome.crash

/-- Exit status of the fueled `_login` loop (lines 360-417): the loop
repeats a full fetch-and-submit attempt while the handler returns None. -/
inductive LoginExit
  | loggedIn
  | failed (msg : List Char)
  | crashed
  | fuelOut
  deriving DecidableEq

/-- The `while True` loop of `_login`, indexed by the response text of
each submission attempt: a `retryCaptcha` result loops back to a fresh
CAPTCHA fetch and submission instead of exiting. -/
def loginRun (resp : Nat → List Char) : Nat → LoginExit
  | 0 => LoginExit.fuelOut
  | n+1 =>
    match handleLoginResult (resp (n+1)) with
    | LoginOutcome.success => LoginExit.loggedIn
    | LoginOutcome.retryCaptcha => loginRun resp n
    | LoginOutcome.rejected m => LoginExit.failed m
    | LoginOutcome.crash => LoginExit.crashed

/-- The Python expression `option.replace(" ", "")` of
`_verify_usr_course_list` (line 473): remove every space character. -/
def stripSpaces (l : List Char) : List Char := l.filter (fun c => c != ' ')

/-- The Python `split(",")` on text: split into the comma-separated parts
(never empty; an empty text gives one empty part). -/
def splitComma : List Char → List (List Char)
  | [] => [[]]
  | c :: rest =>
    if c = ',' then [] :: splitComma rest
    else
      match splitComma rest with
      | [] => [[c]]
      | p :: ps2 => (c :: p) :: ps2

/-- The Python `",".join(parts)`: rejoin parts with commas. -/
def joinComma : List (List Char) → List Char
  | [] => []
  | [p] => p
  | p :: ps => p ++ ',' :: joinComma ps

/-- The destructuring `usr_dept_id, *rest = option.split(",")` followed by
`usr_course_id = ",".join(rest)` (lines 474-475). -/
def parseEntry (o : List Char) : List Char × List Char :=
  match splitComma o with
  | [] => ([], [])
  | d :: rest => (d, joinComma rest)

/-- Abstract state of the live catalog site during verification:
whether the page carries the blocked marker, which department ids resolve
to a selectable option (and its display name), and which
department-and-course id pairs resolve to a course row (and its name
attribute). -/
structure Catalog where
  blocked : Bool
  findDept : List Char → Option (List Char)
  findCourse : List Char → List Char → Option (List Char)

/-- Is the parsed entry resolvable against the catalog: the department
option exists and the course row search is nonempty. -/
def entryOk (cat : Catalog) (o : List Char) : Bool :=
  (cat.findDept (parseEntry o).1).isSome &&
    (cat.findCourse (parseEntry o).1 (parseEntry o).2).isSome

/-- The complement of `entryOk`: the entry is dropped with a warning. -/
def entryBad (cat : Catalog) (o : List Char) : Bool := !(entryOk cat o)

/-- Model of the loop body of `_verify_usr_course_list` (lines 472-532):
process the raw entries in order; each iteration strips spaces, aborts the
process when the fetched page carries the blocked marker, drops the entry
with a warning when the department or the course lookup fails, and appends
the stripped entry to the verified list otherwise. Returns the verified
list together with the list of entries that were warned about; `none`
models the process exit on the blocked marker. -/
def verifyRun (cat : Catalog) : List (List Char) →
    Option (List (List Char) × List (List Char))
  | [] => some ([], [])
  | e :: es =>
    if cat.blocked then none
    else
      match cat.findDept (parseEntry (stripSpaces e)).1 with
      | none =>
        (verifyRun cat es).map (fun r => (r.1, stripSpaces e :: r.2))
      | some _ =>
        match cat.findCourse (parseEntry (stripSpaces e)).1
            (parseEntry (stripSpaces e)).2 with
        | none =>
          (verifyRun cat es).map (fun r => (r.1, stripSpaces e :: r.2))
        | some _ =>
          (verifyRun cat es).map (fun r => (stripSpaces e :: r.1, r.2))

/-- Result of `_verify_usr_course_list` as observed by `run`: the process
exit on the blocked marker, the process exit on an empty verified list
(lines 534-537), or the returned verified list with its warnings. -/
inductive VerifyOutcome
  | aborted
  | emptyExit
  | verified (l : List (List Char)) (w : List (List Char))
  deriving DecidableEq

/-- Model of `_verify_usr_course_list` including its empty-list check. -/
def verifyCourseList (cat : Catalog) (input : List (List Char)) :
    VerifyOutcome :=
  match verifyRun cat input with
  | none => VerifyOutcome.aborted
  | some r =>
    if r.1.isEmpty then VerifyOutcome.emptyExit
    else VerifyOutcome.verified r.1 r.2

/-- The wiring in `run` (lines 746-750): `_select_courses` receives the
verified list only when verification returned one. -/
def runSelectionInput (cat : Catalog) (input : List (List Char)) :
    Option (List (List Char)) :=
  match verifyCourseList cat input with
  | VerifyOutcome.verified l _ => some l
  | _ => none

/-- A catalog holding department CS01 with a course row matching 1234,
used for the worked example of the specification. -/
def cat8 : Catalog :=
  ⟨false,
    fun d => if d = lit "CS01" then some (lit "資訊工程學系") else none,
    fun d c =>
      if d = lit "CS01" then
        if c = lit "1234" then some (lit "mUrl 1234") else none
      else none⟩

/-- A catalog in which no department resolves. -/
def catEmpty : Catalog := ⟨false, fun _ => none, fun _ _ => none⟩

/-- The worked wish-list example of the specification. -/
def input8 : List (List Char) := [lit "CS01, 1234", lit "  XX99,9999"]

/-
Helper lemmas shared by the claim theorems.
-/

/-- A handler outcome applied to the pending list leaves it unchanged or
erases the attempted option. -/
theorem applyOutcome_cases (login : Bool) (o : SelectOutcome)
    (pending : List (List Char)) (opt : List Char) (p2 : List (List Char))
    (h : applyOutcome login o pending opt = some p2) :
    p2 = pending ∨ p2 = pending.erase opt := by
  cases o with
  | keep => exact Or.inl (Option.some.inj h).symm
  | removed => exact Or.inr (Option.some.inj h).symm
  | relogin => exact Or.inl (Option.some.inj h).symm
  | blockedExit => exact Option.noConfusion h
  | warnRemoved => exact Or.inr (Option.some.inj h).symm
  | crash => exact Option.noConfusion h

/-- A completed pass yields a sublist of the pending list it started on. -/
theorem runPass_sublist (login : Bool) (resp : List Char → List Char) :
    ∀ (snap pending p2 : List (List Char)),
      runPass login resp snap pending = some p2 → List.Sublist p2 pending := by
  intro snap
  induction snap with
  | nil =>
    intro pending p2 h
    cases Option.some.inj h
    exact List.Sublist.refl _
  | cons opt rest ih =>
    intro pending p2 h
    simp only [runPass] at h
    cases ha : applyOutcome login (handleSelectResult (resp opt)) pending opt with
    | none => rw [ha] at h; exact Option.noConfusion h
    | some p1 =>
      rw [ha] at h
      have hs := ih p1 p2 h
      rcases applyOutcome_cases login _ pending opt p1 ha with h1 | h1
      · rw [h1] at hs; exact hs
      · rw [h1] at hs; exact hs.trans (List.erase_sublist _ _)

/-- The selection loop only exits its while condition on an empty list. -/
theorem selectLoop_normal (login : Bool) (resp : Nat → List Char → List Char) :
    ∀ (fuel : Nat) (pending final : List (List Char)),
      selectLoop login resp fuel pending = LoopExit.normal final →
      final = [] := by
  intro fuel
  induction fuel with
  | zero => intro pending final h; exact LoopExit.noConfusion h
  | succ n ih =>
    intro pending final h
    simp only [selectLoop] at h
    by_cases he : pending.isEmpty
    · rw [if_pos he] at h
      have h2 := LoopExit.normal.inj h
      rw [← h2]
      exact List.isEmpty_iff.mp he
    · rw [if_neg he] at h
      cases hp : selectPassOnce login (resp n) pending with
      | none => rw [hp] at h; exact LoopExit.noConfusion h
      | some p2 => rw [hp] at h; exact ih p2 final h

/-- Starting a loop iteration on an empty list terminates normally. -/
theorem selectLoop_empty (login : Bool) (resp : Nat → List Char → List Char)
    (fuel : Nat) : selectLoop login resp (fuel+1) [] = LoopExit.normal [] := by
  simp [selectLoop]

/-- A pass in which the server always answers with the retryable text
leaves the pending list untouched. -/
theorem runPass_retry (login : Bool) :
    ∀ snap pending : List (List Char),
      runPass login (fun _ => retryText) snap pending = some pending := by
  intro snap
  induction snap with
  | nil => intro pending; rfl
  | cons opt rest ih =>
    intro pending
    have hk : handleSelectResult retryText = SelectOutcome.keep := by decide
    simp only [runPass, hk, applyOutcome]
    exact ih pending

/-- With purely retryable responses the loop runs out of any pass budget
without terminating, keeping the pending list intact. -/
theorem selectLoop_retry (login : Bool) :
    ∀ (fuel : Nat) (pending : List (List Char)), pending ≠ [] →
      selectLoop login constRetryResp fuel pending =
        LoopExit.fuelOut pending := by
  intro fuel
  induction fuel with
  | zero => intro pending _; rfl
  | succ n ih =>
    intro pending h
    have he : pending.isEmpty = false := by
      cases pending with
      | nil => exact absurd rfl h
      | cons a l => rfl
    have hp : selectPassOnce login (constRetryResp n) pending = some pending :=
      runPass_retry login pending pending
    unfold selectLoop
    rw [if_neg (by simp [he]), hp]
    exact ih pending h

/-- Without an alert pattern the selection handler raises. -/
theorem handleSelect_crash_of_noAlert (t : List Char)
    (h : hasAlert t = false) :
    handleSelectResult t = SelectOutcome.crash := by
  unfold handleSelectResult cleanAlertMsg
  unfold hasAlert at h
  cases hf : findAlert t with
  | none => rfl
  | some m => rw [hf] at h; exact Bool.noConfusion h

/-- Every delay after the burst flag is cleared is the flat 3 seconds. -/
theorem delayTrace_false :
    ∀ ts : List ℚ, delayTrace false ts = ts.map (fun _ => 3) := by
  intro ts
  induction ts with
  | nil => rfl
  | cons t ts ih => simp [delayTrace, dynamicDelay, ih]

/-- The full shape of the delay trace around the first observation of an
elapsed time whose modulo reaches the threshold. -/
theorem delayTrace_burst (t : ℚ) (post : List ℚ) (ht : 5 ≤ pmod60 t) :
    ∀ pre : List ℚ, (∀ s ∈ pre, pmod60 s < 5) →
      delayTrace true (pre ++ t :: post) =
        pre.map (fun _ => 0) ++ 3 :: post.map (fun _ => 3) := by
  intro pre
  induction pre with
  | nil =>
    intro _
    have h5 : ¬ pmod60 t < 5 := not_lt.mpr ht
    simp [delayTrace, dynamicDelay, h5, delayTrace_false]
  | cons s pre ih =>
    intro hpre
    have hs : pmod60 s < 5 := hpre s (List.mem_cons_self s pre)
    have ih2 := ih (fun x hx => hpre x (List.mem_cons_of_mem s hx))
    simp [delayTrace, dynamicDelay, hs, ih2]

/-- The decorator returns the first successful result after any number of
network errors. -/
theorem retryRun_ok (α : Type) (a : α) (rest : List (FuncResult α)) :
    ∀ n : Nat,
      retryRun (List.replicate n FuncResult.netErr ++ FuncResult.ok a :: rest) =
        RetryOutcome.returned a := by
  intro n
  induction n with
  | zero => rfl
  | succ k ih =>
    simp only [List.replicate_succ, List.cons_append, retryRun]
    exact ih

/-- The decorator sleeps the same fixed half second before every retry. -/
theorem retryWaits_ok (α : Type) (a : α) (rest : List (FuncResult α)) :
    ∀ n : Nat,
      retryWaits (List.replicate n FuncResult.netErr ++ FuncResult.ok a :: rest) =
        List.replicate n (1/2 : ℚ) := by
  intro n
  induction n with
  | zero => rfl
  | succ k ih =>
    simp only [List.replicate_succ, List.cons_append, retryWaits]
    exact congrArg (fun x => (1/2 : ℚ) :: x) ih

/-- Network errors alone never make the decorator give up. -/
theorem retryRun_allNet (α : Type) :
    ∀ n : Nat,
      retryRun (List.replicate n (FuncResult.netErr : FuncResult α)) =
        RetryOutcome.retrying := by
  intro n
  induction n with
  | zero => rfl
  | succ k ih =>
    simp only [List.replicate_succ, retryRun]
    exact ih

/-- The decorator exits only when some invocation raised a non network
exception. -/
theorem retryRun_exit_mem (α : Type) :
    ∀ attempts : List (FuncResult α),
      retryRun attempts = RetryOutcome.exited →
      FuncResult.fatalErr ∈ attempts := by
  intro attempts
  induction attempts with
  | nil => intro h; exact RetryOutcome.noConfusion h
  | cons x rest ih =>
    intro h
    cases x with
    | ok a => exact RetryOutcome.noConfusion h
    | netErr => exact List.mem_cons_of_mem _ (ih h)
    | fatalErr => exact List.mem_cons_self _ _

/-- Splitting never produces an empty list of parts. -/
theorem splitComma_ne_nil : ∀ l : List Char, splitComma l ≠ [] := by
  intro l
  cases l with
  | nil => exact fun h => List.noConfusion h
  | cons c rest =>
    unfold splitComma
    by_cases hc : c = ','
    · rw [if_pos hc]; exact fun h => List.noConfusion h
    · rw [if_neg hc]
      cases splitComma rest with
      | nil => exact fun h => List.noConfusion h
      | cons p ps => exact fun h => List.noConfusion h

/-- Rejoining the comma-split parts reproduces the text. -/
theorem joinComma_splitComma : ∀ l : List Char, joinComma (splitComma l) = l := by
  intro l
  induction l with
  | nil => rfl
  | cons c rest ih =>
    unfold splitComma
    by_cases hc : c = ','
    · rw [if_pos hc]
      cases hs : splitComma rest with
      | nil => exact absurd hs (splitComma_ne_nil rest)
      | cons p ps =>
        rw [hs] at ih
        simp only [joinComma, List.nil_append]
        rw [ih, hc]
    · rw [if_neg hc]
      cases hs : splitComma rest with
      | nil => exact absurd hs (splitComma_ne_nil rest)
      | cons p ps =>
        rw [hs] at ih
        cases ps with
        | nil =>
          simp only [joinComma] at ih ⊢
          rw [ih]
        | cons q qs =>
          simp only [joinComma, List.cons_append] at ih ⊢
          rw [ih]

/-- Splitting a text whose prefix has no comma peels off that prefix. -/
theorem splitComma_append (rest : List Char) :
    ∀ d : List Char, (∀ c ∈ d, c ≠ ',') →
      splitComma (d ++ ',' :: rest) = d :: splitComma rest := by
  intro d
  induction d with
  | nil =>
    intro _
    show splitComma (',' :: rest) = [] :: splitComma rest
    rfl
  | cons a d ih =>
    intro hd
    have ha : a ≠ ',' := hd a (List.mem_cons_self a d)
    have ih2 := ih (fun c hc => hd c (List.mem_cons_of_mem a hc))
    show splitComma (a :: (d ++ ',' :: rest)) = (a :: d) :: splitComma rest
    conv_lhs => rw [splitComma]
    rw [if_neg ha, ih2]

/-- The split-and-rejoin parse takes the text before the first comma as
the department id and the full remainder as the course id. -/
theorem parseEntry_first_comma (d rest : List Char)
    (hd : ∀ c ∈ d, c ≠ ',') :
    parseEntry (d ++ ',' :: rest) = (d, rest) := by
  unfold parseEntry
  rw [splitComma_append rest d hd]
  show (d, joinComma (splitComma rest)) = (d, rest)
  rw [joinComma_splitComma]

/-- When the blocked marker is absent, verification is exactly a filter of
the space-stripped entries by catalog resolvability, with the complement
as the warned entries. -/
theorem verifyRun_filter (cat : Catalog) (h : cat.blocked = false) :
    ∀ input : List (List Char),
      verifyRun cat input =
        some (((input.map stripSpaces).filter (entryOk cat)),
              ((input.map stripSpaces).filter (entryBad cat))) := by
  intro input
  induction input with
  | nil => rfl
  | cons e es ih =>
    unfold verifyRun
    rw [if_neg (by simp [h])]
    cases hd : cat.findDept (parseEntry (stripSpaces e)).1 with
    | none =>
      rw [ih]
      simp [entryOk, entryBad, hd]
    | some dn =>
      cases hc : cat.findCourse (parseEntry (stripSpaces e)).1
          (parseEntry (stripSpaces e)).2 with
      | none =>
        rw [ih]
        simp [entryOk, entryBad, hd, hc]
      | some cn =>
        rw [ih]
        simp [entryOk, entryBad, hd, hc]

/-- A returned verified list is never empty. -/
theorem verified_nonempty (cat : Catalog) (input l w : List (List Char))
    (h : verifyCourseList cat input = VerifyOutcome.verified l w) :
    l ≠ [] := by
  unfold verifyCourseList at h
  cases hr : verifyRun cat input with
  | none => rw [hr] at h; exact VerifyOutcome.noConfusion h
  | some r =>
    rw [hr] at h
    have h2 : (if r.1.isEmpty = true then VerifyOutcome.emptyExit
        else VerifyOutcome.verified r.1 r.2) = VerifyOutcome.verified l w := h
    by_cases he : r.1.isEmpty
    · rw [if_pos he] at h2; exact VerifyOutcome.noConfusion h2
    · rw [if_neg he] at h2
      injection h2 with h1 h3
      rw [← h1]
      intro hnil
      exact he (by rw [hnil]; rfl)

/-
Claim theorems.
-/

/-- C1 counterexample: a confirmation response text that contains the
seats-full Retryable marker but no alert pattern is not kept pending as
the claim states for every response text; the handler raises while
extracting the alert message and the process terminates. -/
theorem c1_classification_cex :
    anyIn (lit "人數已達上限") retryMessages = true ∧
    handleSelectResult (lit "人數已達上限") = SelectOutcome.crash ∧
    handleSelectResult (lit "人數已達上限") ≠ SelectOutcome.keep ∧
    applyOutcome true (handleSelectResult (lit "人數已達上限"))
      [lit "CS01,1234"] (lit "CS01,1234") = none := by decide

/-- C1 amended: for every selection-confirmation response text that
contains an alert pattern, classification proceeds through the four
ordered marker groups exactly as the specification orders them, first
match wins, and each outcome has the stated effect on the pending list:
Retryable keeps the course, Accepted removes it, SessionLost re-runs the
login and keeps it, Blocked terminates, and an unmatched text is warned
about and removed. -/
theorem c1_classification (t : List Char) (h : hasAlert t = true) :
    handleSelectResult t = specOrderedClassify t ∧
    (∀ (login : Bool) (pending : List (List Char)) (opt : List Char),
      applyOutcome login SelectOutcome.keep pending opt = some pending ∧
      applyOutcome login SelectOutcome.removed pending opt =
        some (pending.erase opt) ∧
      applyOutcome login SelectOutcome.relogin pending opt = some pending ∧
      applyOutcome login SelectOutcome.blockedExit pending opt = none ∧
      applyOutcome login SelectOutcome.warnRemoved pending opt =
        some (pending.erase opt)) := by
  constructor
  · unfold handleSelectResult specOrderedClassify cleanAlertMsg
    unfold hasAlert at h
    cases hf : findAlert t with
    | none => rw [hf] at h; exact Bool.noConfusion h
    | some m => rfl
  · intro login pending opt
    exact ⟨rfl, rfl, rfl, rfl, rfl⟩

/-- C1 witness: the amended theorem applied to a retryable confirmation
text that carries an alert pattern. -/
theorem c1_classification_witness :
    hasAlert retryText = true ∧
    handleSelectResult retryText = specOrderedClassify retryText ∧
    applyOutcome true SelectOutcome.keep [retryText] retryText =
      some [retryText] :=
  ⟨by decide, (c1_classification retryText (by decide)).1,
    ((c1_classification retryText (by decide)).2 true [retryText] retryText).1⟩

/-- C2: starting from the boosted flag, every call whose elapsed time
modulo 60 is below 5 returns delay 0 and keeps the flag; the first call
observing at least 5 returns 3 and clears the flag; every later call
returns 3 whatever its elapsed time is, and a cleared flag never produces
a delay other than 3 again. -/
theorem c2_pacing (pre post : List ℚ) (t : ℚ)
    (hpre : ∀ s ∈ pre, pmod60 s < 5) (ht : 5 ≤ pmod60 t) :
    delayTrace true (pre ++ t :: post) =
      pre.map (fun _ => 0) ++ 3 :: post.map (fun _ => 3) ∧
    (dynamicDelay true t).2 = false ∧
    (∀ u : ℚ, dynamicDelay false u = (3, false)) := by
  refine ⟨delayTrace_burst t post ht pre hpre, ?_, ?_⟩
  · have h5 : ¬ pmod60 t < 5 := not_lt.mpr ht
    simp [dynamicDelay, h5]
  · intro u
    simp [dynamicDelay]

/-- C2 witness: a concrete run whose calls happen at elapsed times 0, 1,
7 and 61 seconds; the call at 61 seconds lies in the next burst window
modulo 60 and still gets the flat 3-second delay. -/
theorem c2_pacing_witness :
    pmod60 0 < 5 ∧ pmod60 1 < 5 ∧ 5 ≤ pmod60 7 ∧ pmod60 61 < 5 ∧
    delayTrace true [0, 1, 7, 61] = [0, 0, 3, 3] ∧
    dynamicDelay false 61 = (3, false) := by
  have h0 : pmod60 0 < 5 := by norm_num [pmod60]
  have h1 : pmod60 1 < 5 := by norm_num [pmod60]
  have h7 : 5 ≤ pmod60 7 := by norm_num [pmod60]
  have h61 : pmod60 61 < 5 := by norm_num [pmod60]
  have hpre : ∀ s ∈ [(0 : ℚ), 1], pmod60 s < 5 := by
    intro s hs
    simp only [List.mem_cons, List.not_mem_nil, or_false] at hs
    rcases hs with rfl | rfl
    · exact h0
    · exact h1
  have main := c2_pacing [0, 1] [61] 7 hpre h7
  refine ⟨h0, h1, h7, h61, ?_, main.2.2 61⟩
  simpa using main.1

/-- C3: one handler outcome removes at most the attempted course and never
adds one; a completed pass leaves a sublist of no greater length; the loop
exits its while condition only with an empty pending list and exits it at
once on an empty list; and under purely retryable responses the loop is
still running after any number of passes, so no pass ceiling exists. -/
theorem c3_pending_monotone :
    (∀ (login : Bool) (o : SelectOutcome) (pending : List (List Char))
        (opt : List Char) (p2 : List (List Char)),
        applyOutcome login o pending opt = some p2 →
        p2 = pending ∨ p2 = pending.erase opt) ∧
    (∀ (login : Bool) (resp : List Char → List Char)
        (pending p2 : List (List Char)),
        selectPassOnce login resp pending = some p2 →
        List.Sublist p2 pending ∧ p2.length ≤ pending.length) ∧
    (∀ (login : Bool) (resp : Nat → List Char → List Char)
        (fuel : Nat) (pending final : List (List Char)),
        selectLoop login resp fuel pending = LoopExit.normal final →
        final = []) ∧
    (∀ (login : Bool) (resp : Nat → List Char → List Char) (fuel : Nat),
        selectLoop login resp (fuel+1) [] = LoopExit.normal []) ∧
    (∀ (login : Bool) (fuel : Nat) (pending : List (List Char)),
        pending ≠ [] →
        selectLoop login constRetryResp fuel pending =
          LoopExit.fuelOut pending) := by
  refine ⟨applyOutcome_cases, ?_, selectLoop_normal, selectLoop_empty,
    selectLoop_retry⟩
  intro login resp pending p2 h
  have hs := runPass_sublist login resp pending pending p2 h
  exact ⟨hs, hs.length_le⟩

/-- C3 witness: a singleton pending list under purely retryable responses
is unchanged after five passes with the loop still running, and a loop
started on the empty list terminates normally at once. -/
theorem c3_pending_monotone_witness :
    ([lit "CS01,1234"] : List (List Char)) ≠ [] ∧
    selectLoop true constRetryResp 5 [lit "CS01,1234"] =
      LoopExit.fuelOut [lit "CS01,1234"] ∧
    selectLoop true constRetryResp 1 [] = LoopExit.normal [] :=
  ⟨by decide,
    c3_pending_monotone.2.2.2.2 true 5 [lit "CS01,1234"] (by decide),
    c3_pending_monotone.2.2.2.1 true constRetryResp 0⟩

/-- C4: a wrapped step returns its first successful result after any
number of network errors with one fixed half-second wait before each
retry and no ceiling; network errors alone never end the run, and the
wrapper only exits the process when a non network exception occurred. -/
theorem c4_transport_retry :
    (∀ (α : Type) (a : α) (rest : List (FuncResult α)) (n : Nat),
        retryRun (List.replicate n FuncResult.netErr ++
          FuncResult.ok a :: rest) = RetryOutcome.returned a) ∧
    (∀ (α : Type) (a : α) (rest : List (FuncResult α)) (n : Nat),
        retryWaits (List.replicate n FuncResult.netErr ++
          FuncResult.ok a :: rest) = List.replicate n (1/2 : ℚ)) ∧
    (∀ (α : Type) (n : Nat),
        retryRun (List.replicate n (FuncResult.netErr : FuncResult α)) =
          RetryOutcome.retrying) ∧
    (∀ (α : Type) (attempts : List (FuncResult α)),
        retryRun attempts = RetryOutcome.exited →
        FuncResult.fatalErr ∈ attempts) :=
  ⟨fun α a rest n => retryRun_ok α a rest n,
    fun α a rest n => retryWaits_ok α a rest n,
    fun α n => retryRun_allNet α n,
    fun α attempts h => retryRun_exit_mem α attempts h⟩

/-- C4 witness: a run whose second invocation raises a non network
exception exits, and the exceptional invocation is indeed in the list. -/
theorem c4_transport_retry_witness :
    retryRun ([FuncResult.netErr, FuncResult.fatalErr] :
        List (FuncResult Bool)) = RetryOutcome.exited ∧
    FuncResult.fatalErr ∈ ([FuncResult.netErr, FuncResult.fatalErr] :
        List (FuncResult Bool)) :=
  ⟨by decide, c4_transport_retry.2.2.2 Bool
    [FuncResult.netErr, FuncResult.fatalErr] (by decide)⟩

/-- C5 counterexample: a login response text with no success marker, no
CAPTCHA marker and no alert pattern does not make the routine terminate
returning failure as the claim states; the alert extraction raises and
the handler outcome is the crash that terminates the process. -/
theorem c5_login_cex :
    containsSub succeededMessage (lit "xyz") = false ∧
    containsSub retryMessage (lit "xyz") = false ∧
    handleLoginResult (lit "xyz") = LoginOutcome.crash ∧
    (∀ m : List Char, handleLoginResult (lit "xyz") ≠ LoginOutcome.rejected m) := by
  refine ⟨by decide, by decide, by decide, ?_⟩
  intro m h
  have hc : handleLoginResult (lit "xyz") = LoginOutcome.crash := by decide
  rw [hc] at h
  exact LoginOutcome.noConfusion h

/-- C5 amended: login-result classification is first-match-wins: the
success marker wins and terminates the login loop with success; otherwise
the CAPTCHA-incorrect marker loops the routine back to a fresh fetch and
submission instead of exiting; otherwise, when the response carries an
alert pattern, the alert message is extracted and the routine terminates
returning failure; a response with none of these raises and the process
terminates. -/
theorem c5_login (t : List Char) :
    (containsSub succeededMessage t = true →
        handleLoginResult t = LoginOutcome.success) ∧
    (containsSub succeededMessage t = false →
        containsSub retryMessage t = true →
        handleLoginResult t = LoginOutcome.retryCaptcha) ∧
    (containsSub succeededMessage t = false →
        containsSub retryMessage t = false → hasAlert t = true →
        ∃ m, handleLoginResult t = LoginOutcome.rejected m) ∧
    (∀ (resp : Nat → List Char) (n : Nat),
        handleLoginResult (resp (n+1)) = LoginOutcome.retryCaptcha →
        loginRun resp (n+1) = loginRun resp n) ∧
    (∀ (resp : Nat → List Char) (n : Nat),
        handleLoginResult (resp (n+1)) = LoginOutcome.success →
        loginRun resp (n+1) = LoginExit.loggedIn) ∧
    (∀ (resp : Nat → List Char) (n : Nat) (m : List Char),
        handleLoginResult (resp (n+1)) = LoginOutcome.rejected m →
        loginRun resp (n+1) = LoginExit.failed m) := by
  refine ⟨?_, ?_, ?_, ?_, ?_, ?_⟩
  · intro h1
    unfold handleLoginResult
    rw [if_pos h1]
  · intro h1 h2
    unfold handleLoginResult
    rw [if_neg (by simp [h1]), if_pos h2]
  · intro h1 h2 hA
    unfold handleLoginResult
    rw [if_neg (by simp [h1]), if_neg (by simp [h2])]
    unfold hasAlert at hA
    cases hf : findAlert t with
    | none => rw [hf] at hA; exact Bool.noConfusion hA
    | some m =>
      refine ⟨m.filter (fun c => !(cleanChars.contains c)), ?_⟩
      unfold cleanAlertMsg
      rw [hf]
      rfl
  · intro resp n h
    simp only [loginRun, h]
  · intro resp n h
    simp only [loginRun, h]
  · intro resp n m h
    simp only [loginRun, h]

/-- C5 witness: the amended theorem applied to a response carrying the
CAPTCHA-incorrect marker, which loops back rather than exiting. -/
theorem c5_login_witness :
    containsSub succeededMessage (lit "驗證碼錯誤") = false ∧
    containsSub retryMessage (lit "驗證碼錯誤") = true ∧
    handleLoginResult (lit "驗證碼錯誤") = LoginOutcome.retryCaptcha :=
  ⟨by decide, by decide,
    (c5_login (lit "驗證碼錯誤")).2.1 (by decide) (by decide)⟩

/-- C6: with the blocked marker absent, verification returns exactly the
space-stripped input entries filtered by catalog resolvability, with the
unresolvable ones as the warned entries; the verified output is an
order-preserving sublist of the parsed input, and a dropped entry never
appears in it. -/
theorem c6_verifier_subsequence (cat : Catalog) (h : cat.blocked = false)
    (input : List (List Char)) :
    verifyRun cat input =
      some (((input.map stripSpaces).filter (entryOk cat)),
            ((input.map stripSpaces).filter (entryBad cat))) ∧
    List.Sublist ((input.map stripSpaces).filter (entryOk cat))
      (input.map stripSpaces) ∧
    (∀ o : List Char, entryOk cat o = false →
        o ∉ (input.map stripSpaces).filter (entryOk cat)) := by
  refine ⟨verifyRun_filter cat h input, List.filter_sublist _, ?_⟩
  intro o ho hmem
  have hx := (List.mem_filter.mp hmem).2
  rw [ho] at hx
  exact Bool.noConfusion hx

/-- C6 witness: the filter characterization instantiated on the concrete
catalog and wish-list of the worked example. -/
theorem c6_verifier_subsequence_witness :
    cat8.blocked = false ∧
    verifyRun cat8 input8 =
      some (((input8.map stripSpaces).filter (entryOk cat8)),
            ((input8.map stripSpaces).filter (entryBad cat8))) :=
  ⟨rfl, (c6_verifier_subsequence cat8 rfl input8).1⟩

/-- C7: a verification pass whose verified list is empty makes the
process exit with the empty-course-list error instead of returning, and
any list actually handed to the selection loop is nonempty. -/
theorem c7_empty_exit :
    (∀ (cat : Catalog) (input w : List (List Char)),
        verifyRun cat input = some ([], w) →
        verifyCourseList cat input = VerifyOutcome.emptyExit) ∧
    (∀ (cat : Catalog) (input l : List (List Char)),
        runSelectionInput cat input = some l → l ≠ []) := by
  constructor
  · intro cat input w hw
    unfold verifyCourseList
    rw [hw]
    rfl
  · intro cat input l hl
    unfold runSelectionInput at hl
    cases hv : verifyCourseList cat input with
    | aborted => rw [hv] at hl; exact Option.noConfusion hl
    | emptyExit => rw [hv] at hl; exact Option.noConfusion hl
    | verified l2 w =>
      rw [hv] at hl
      have h2 : l2 = l := Option.some.inj hl
      rw [← h2]
      exact verified_nonempty cat input l2 w hv

/-- C7 witness: a catalog resolving nothing empties the wish-list and the
process exits before selection. -/
theorem c7_empty_exit_witness :
    verifyRun catEmpty [lit "CS01,1234"] = some ([], [lit "CS01,1234"]) ∧
    verifyCourseList catEmpty [lit "CS01,1234"] = VerifyOutcome.emptyExit :=
  ⟨by decide, c7_empty_exit.1 catEmpty [lit "CS01,1234"] [lit "CS01,1234"]
    (by decide)⟩

/-- C8: parsing takes the text before the first comma as the department
id and the rejoined remainder, commas included, as the course id; on the
worked example the verified output is exactly the space-normalized first
entry and the second entry is warned about while verification returns
normally. -/
theorem c8_parse_example :
    (∀ d rest : List Char, (∀ c ∈ d, c ≠ ',') →
        parseEntry (d ++ ',' :: rest) = (d, rest)) ∧
    stripSpaces (lit "CS01, 1234") = lit "CS01,1234" ∧
    stripSpaces (lit "  XX99,9999") = lit "XX99,9999" ∧
    verifyRun cat8 input8 = some ([lit "CS01,1234"], [lit "XX99,9999"]) ∧
    verifyCourseList cat8 input8 =
      VerifyOutcome.verified [lit "CS01,1234"] [lit "XX99,9999"] :=
  ⟨fun d rest hd => parseEntry_first_comma d rest hd,
    by decide, by decide, by decide, by decide⟩

/-- C8 witness: the parse shape applied to a concrete entry whose course
id itself contains a comma. -/
theorem c8_parse_example_witness :
    parseEntry (lit "AB" ++ ',' :: lit "12,34") = (lit "AB", lit "12,34") :=
  c8_parse_example.1 (lit "AB") (lit "12,34") (by decide)

/-- C9: the selection-result handler dereferences the alert search before
any marker test, so a confirmation text without an alert pattern always
produces the crash that the unknown-exception handler turns into process
termination, and the unrecognized log-and-drop branch is reachable only
for texts that do contain an alert pattern. -/
theorem c9_alert_precondition :
    (∀ t : List Char, hasAlert t = false →
        handleSelectResult t = SelectOutcome.crash) ∧
    (∀ t : List Char, handleSelectResult t = SelectOutcome.warnRemoved →
        hasAlert t = true) ∧
    (∀ (login : Bool) (pending : List (List Char)) (opt : List Char),
        applyOutcome login SelectOutcome.crash pending opt = none) := by
  refine ⟨fun t h => handleSelect_crash_of_noAlert t h, ?_, fun _ _ _ => rfl⟩
  intro t h
  cases hb : hasAlert t with
  | true => rfl
  | false =>
    rw [handleSelect_crash_of_noAlert t hb] at h
    exact SelectOutcome.noConfusion h

/-- C9 witness: a text carrying only an Accepted marker and no alert
pattern crashes the handler instead of reaching any marker branch. -/
theorem c9_alert_precondition_witness :
    hasAlert (lit "完成加選") = false ∧
    handleSelectResult (lit "完成加選") = SelectOutcome.crash :=
  ⟨by decide, c9_alert_precondition.1 (lit "完成加選") (by decide)⟩

/-- C10: a session-lost confirmation makes the handler re-run the login
routine and return normally whatever boolean that login returns; the
course is not removed and the pass goes on, identically for a failed and
for a successful re-authentication. -/
theorem c10_session_lost (t : List Char) (h1 : hasAlert t = true)
    (h2 : anyIn t retryMessages = false)
    (h3 : anyIn t succeededMessages = false)
    (h4 : anyIn t failedMessages = true) :
    handleSelectResult t = SelectOutcome.relogin ∧
    (∀ (loginResult : Bool) (pending : List (List Char)) (opt : List Char),
        applyOutcome loginResult SelectOutcome.relogin pending opt =
          some pending) ∧
    (∀ (pending : List (List Char)) (opt : List Char),
        applyOutcome false SelectOutcome.relogin pending opt =
          applyOutcome true SelectOutcome.relogin pending opt) := by
  refine ⟨?_, fun _ _ _ => rfl, fun _ _ => rfl⟩
  unfold handleSelectResult
  unfold hasAlert at h1
  cases hf : findAlert t with
  | none => rw [hf] at h1; exact Bool.noConfusion h1
  | some m =>
    have hm : cleanAlertMsg t =
        some (m.filter (fun c => !(cleanChars.contains c))) := by
      unfold cleanAlertMsg
      rw [hf]
      rfl
    rw [hm]
    rw [if_neg (by simp [h2]), if_neg (by simp [h3]), if_pos h4]

/-- C10 witness: a disconnect alert is classified session-lost and the
pending list survives a failed re-authentication unchanged. -/
theorem c10_session_lost_witness :
    hasAlert sessionLostText = true ∧
    anyIn sessionLostText retryMessages = false ∧
    anyIn sessionLostText succeededMessages = false ∧
    anyIn sessionLostText failedMessages = true ∧
    handleSelectResult sessionLostText = SelectOutcome.relogin ∧
    applyOutcome false SelectOutcome.relogin [sessionLostText]
      sessionLostText = some [sessionLostText] :=
  ⟨by decide, by decide, by decide, by decide,
    (c10_session_lost sessionLostText (by decide) (by decide) (by decide)
      (by decide)).1,
    ((c10_session_lost sessionLostText (by decide) (by decide) (by decide)
      (by decide)).2.1 false [sessionLostText] sessionLostText)⟩
